import Mathlib

/-!
Verification of the Aluminum browser network fetch pipeline
(NetworkManager: fetch orchestration, request queue, configuration
updates, retry backoff handler, connection pool, network-condition
adjustment) against its natural-language specification.

The Zig source is shallowly embedded: each orchestration method becomes a
Lean function over explicit state; the external component modules
(dns resolver, http client, cache manager backends) whose bodies are not
part of this repository appear as oracle parameters, and every network
side effect is recorded in an explicit event trace.
-/

deriving instance DecidableEq for Except

namespace Aluminum

/-- Error taxonomy of the pipeline (spec section 7). The embedding only
needs errors to be distinguishable values that propagate. -/
inductive NetError where
  | resolutionError
  | poolExhausted
  | transientError
  | protocolError
  | otherError
  deriving DecidableEq, Repr

/-- Options for fetching a resource, from the FetchOptions struct. -/
structure FetchOptions where
  use_cache : Bool := true
  cache_response : Bool := true
  use_ssl : Bool := true
  deriving DecidableEq, Repr

/-- An HTTP response; the source struct carries only the cacheability
flag, plus an identity tag so distinct responses are distinguishable. -/
structure Response where
  is_cacheable : Bool
  body : String := ""
  deriving DecidableEq, Repr

/-- An HTTP request (placeholder struct in the source). -/
structure Request where
  tag : String := ""
  deriving DecidableEq, Repr

/-- A pooled network connection (placeholder struct in the source). -/
structure Connection where
  tag : String := ""
  deriving DecidableEq, Repr

/-- Configuration options for the NetworkManager, from NetworkConfig. -/
structure NetworkConfig where
  max_connections_per_host : Nat
  max_total_connections : Nat
  request_timeout : Nat
  dns_servers : List String
  dns_cache_size : Nat
  cache_max_size : Nat
  cache_expiration_policy : Nat
  ca_bundle_path : String
  max_retries : Nat
  network_monitor_interval : Nat
  deriving DecidableEq, Repr

/-- A pending network request, from the PendingRequest struct. -/
structure PendingRequest where
  url : String
  options : FetchOptions
  deriving DecidableEq, Repr

/-- Result of a network speed test, from SpeedTestResult. -/
structure SpeedTestResult where
  download_speed : Nat
  upload_speed : Nat
  latency : Nat
  deriving DecidableEq, Repr

/-- Network side effects performed by a fetch, recorded in order. Each
event stands for one successfully completed component operation. -/
inductive NetEvent where
  | resolve (host : String)
  | acquire (ip : String) (use_ssl : Bool)
  | send
  | cacheSet (url : String)
  | release
  deriving DecidableEq, Repr

/-- The external component modules consulted by fetch. Their bodies live
outside this repository (dns, http, cache imports), so they are oracle
functions; the orchestration code under verification is what combines
them. -/
structure Env where
  cacheGet : String → Except NetError (Option Response)
  resolve : String → Except NetError String
  acquire : String → Bool → Except NetError Connection
  prepare : String → FetchOptions → Except NetError Request
  send : Connection → Request → Except NetError Response
  cacheSet : String → Response → Except NetError Unit

/-- NetworkManager.extractHost: the source body is a placeholder that
returns the url unchanged. -/
def extractHost (url : String) : String := url

/-- NetworkManager.fetch. Mirrors the source control flow: consult the
response cache when options.use_cache; on a hit return the cached
response at once; otherwise resolve the host, acquire a pooled
connection (released on every scope exit, embedding the defer), prepare
and send the request, and store the response when
options.cache_response and response.is_cacheable. The returned list is
the trace of completed network operations. -/
def fetch (env : Env) (url : String) (options : FetchOptions) :
    Except NetError Response × List NetEvent :=
  match (if options.use_cache then env.cacheGet url else .ok none) with
  | .error e => (.error e, [])
  | .ok (some cached_response) => (.ok cached_response, [])
  | .ok none =>
    match env.resolve (extractHost url) with
    | .error e => (.error e, [])
    | .ok ip =>
      match env.acquire ip options.use_ssl with
      | .error e => (.error e, [.resolve (extractHost url)])
      | .ok conn =>
        match env.prepare url options with
        | .error e =>
          (.error e,
            [.resolve (extractHost url), .acquire ip options.use_ssl,
              .release])
        | .ok request =>
          match env.send conn request with
          | .error e =>
            (.error e,
              [.resolve (extractHost url), .acquire ip options.use_ssl,
                .release])
          | .ok response =>
            if options.cache_response && response.is_cacheable then
              match env.cacheSet url response with
              | .error e =>
                (.error e,
                  [.resolve (extractHost url), .acquire ip options.use_ssl,
                    .send, .release])
              | .ok _ =>
                (.ok response,
                  [.resolve (extractHost url), .acquire ip options.use_ssl,
                    .send, .cacheSet url, .release])
            else
              (.ok response,
                [.resolve (extractHost url), .acquire ip options.use_ssl,
                  .send, .release])

/-- NetworkManager.queueRequest: append a pending request to the back of
the request queue (ArrayList.append). -/
def queueRequest (queue : List PendingRequest) (url : String)
    (options : FetchOptions) : List PendingRequest :=
  queue ++ [{ url := url, options := options }]

/-- One drain pass over a reversed queue. The source loop repeatedly
calls popOrNull, which removes the LAST element of the ArrayList, so the
pass walks the queue back to front; here the queue is passed already
reversed so the walk is structural. The try on fetch propagates the
first failure, ending the pass. Returns the pass result, the elements
left in the (reversed) queue, and the (url, options) pairs passed to
fetch, in call order. -/
def drainRev (runFetch : String → FetchOptions → Except NetError Response) :
    List PendingRequest →
      Except NetError Unit × List PendingRequest × List (String × FetchOptions)
  | [] => (.ok (), [], [])
  | p :: rest =>
    match runFetch p.url p.options with
    | .error e => (.error e, rest, [(p.url, p.options)])
    | .ok _ =>
      let r := drainRev runFetch rest
      (r.1, r.2.1, (p.url, p.options) :: r.2.2)

/-- NetworkManager.processQueue: drain the queue by popping from the back
(popOrNull) and calling fetch on each popped entry; a fetch failure
propagates out of the loop via try. runFetch abstracts the outcome of
each orchestrator-level fetch call. -/
def processQueue (runFetch : String → FetchOptions → Except NetError Response)
    (queue : List PendingRequest) :
    Except NetError Unit × List PendingRequest × List (String × FetchOptions) :=
  let r := drainRev runFetch queue.reverse
  (r.1, r.2.1.reverse, r.2.2)

/-- Sub-configuration held by the http client (the fields
NetworkManager.updateConfig pushes to it). -/
structure HttpClientConfig where
  max_connections_per_host : Nat
  timeout : Nat
  deriving DecidableEq, Repr

/-- Sub-configuration held by the dns resolver. -/
structure DnsConfig where
  nameservers : List String
  cache_size : Nat
  deriving DecidableEq, Repr

/-- Sub-configuration held by the cache manager. -/
structure CacheConfig where
  max_size : Nat
  expiration_policy : Nat
  deriving DecidableEq, Repr

/-- The configuration-bearing state of the NetworkManager and the
components it pushes configuration to. -/
structure ManagerState where
  config : NetworkConfig
  http_config : HttpClientConfig
  dns_config : DnsConfig
  cache_config : CacheConfig
  pool_max_connections : Nat
  deriving DecidableEq, Repr

/-- The http-client sub-configuration derived from a NetworkConfig, as
built at the updateConfig call site. -/
def httpConfigOf (c : NetworkConfig) : HttpClientConfig :=
  { max_connections_per_host := c.max_connections_per_host
    timeout := c.request_timeout }

/-- The dns sub-configuration derived from a NetworkConfig. -/
def dnsConfigOf (c : NetworkConfig) : DnsConfig :=
  { nameservers := c.dns_servers, cache_size := c.dns_cache_size }

/-- The cache sub-configuration derived from a NetworkConfig. -/
def cacheConfigOf (c : NetworkConfig) : CacheConfig :=
  { max_size := c.cache_max_size
    expiration_policy := c.cache_expiration_policy }

/-- Which of the four fallible component updates inside updateConfig
succeed; each corresponds to one try in the source. -/
structure UpdateOutcome where
  http_ok : Bool
  dns_ok : Bool
  cache_ok : Bool
  pool_ok : Bool
  deriving DecidableEq, Repr

/-- NetworkManager.updateConfig: assigns self.config, then pushes the
derived sub-configurations to the http client, dns resolver, cache
manager and connection pool in that order; each push may fail (try) and
a failure propagates immediately, leaving the later components
untouched. -/
def updateConfig (oc : UpdateOutcome) (st : ManagerState)
    (new_config : NetworkConfig) : Except NetError Unit × ManagerState :=
  let st := { st with config := new_config }
  if !oc.http_ok then (.error .otherError, st)
  else
    let st := { st with http_config := httpConfigOf new_config }
    if !oc.dns_ok then (.error .otherError, st)
    else
      let st := { st with dns_config := dnsConfigOf new_config }
      if !oc.cache_ok then (.error .otherError, st)
      else
        let st := { st with cache_config := cacheConfigOf new_config }
        if !oc.pool_ok then (.error .otherError, st)
        else
          (.ok (), { st with pool_max_connections :=
            new_config.max_total_connections })

/-- Nanoseconds per millisecond (std.time.ns_per_ms). -/
def nsPerMs : Nat := 1000000

/-- NetworkManager.handleNetworkError: if retry_count has reached
config.max_retries, return the error as fatal; otherwise compute the
backoff wait ns_per_ms * 2 ^ retry_count (in nanoseconds) and sleep for
it. Returns the wait performed. -/
def handleNetworkError (config : NetworkConfig) (err : NetError)
    (retry_count : Nat) : Except NetError Nat :=
  if retry_count ≥ config.max_retries then .error err
  else .ok (nsPerMs * 2 ^ retry_count)

/-- Modelled from the spec: the Retry/Backoff Controller's execute loop
(spec section 4.4) is absent from the source — only its per-failure
helper handleNetworkError is present. The loop runs the operation at
attempt 0, 1, ...; on a failure it consults handleNetworkError with the
0-based attempt index (so the wait before retry i is base * 2 ^ i, the
spec's formula), stopping fatally when the helper says retries are
exhausted. Fuel bounds the recursion; it exceeds the attempts the helper
permits, so the 0-fuel branch is unreachable from executeRetry. Returns
the result and the total time waited. -/
def executeRetryAux (config : NetworkConfig)
    (op : Nat → Except NetError Response) :
    Nat → Nat → Nat → Except NetError Response × Nat
  | 0, _, waited => (.error .transientError, waited)
  | fuel + 1, attempt, waited =>
    match op attempt with
    | .ok r => (.ok r, waited)
    | .error e =>
      match handleNetworkError config e attempt with
      | .error e2 => (.error e2, waited)
      | .ok wait => executeRetryAux config op fuel (attempt + 1) (waited + wait)

/-- Modelled from the spec: Retry/Backoff Controller execute — run the
operation with retries starting at attempt 0 with nothing waited yet. -/
def executeRetry (config : NetworkConfig)
    (op : Nat → Except NetError Response) : Except NetError Response × Nat :=
  executeRetryAux config op (config.max_retries + 1) 0 0

/-- A simulated operation that fails transiently n times then succeeds:
attempts 0 .. n-1 fail, attempt n (and later) succeed. -/
def failsNTimes (n : Nat) (resp : Response) :
    Nat → Except NetError Response := fun attempt =>
  if attempt < n then .error .transientError else .ok resp

/-- NetworkManager.adjustSettingsBasedOnNetworkConditions, the pure part:
copy the current config and overwrite max_connections_per_host and
request_timeout according to the measured download-speed band; the
result is then pushed via updateConfig. -/
def adjustSettingsBasedOnNetworkConditions (config : NetworkConfig)
    (speed_test_result : SpeedTestResult) : NetworkConfig :=
  if speed_test_result.download_speed < 1000000 then
    { config with max_connections_per_host := 2, request_timeout := 30000 }
  else if speed_test_result.download_speed < 10000000 then
    { config with max_connections_per_host := 4, request_timeout := 15000 }
  else
    { config with max_connections_per_host := 6, request_timeout := 10000 }

/-- Modelled from the spec: the ConnectionPool bookkeeping (spec section
4.2) — the source struct is an explicit placeholder. The pool tracks the
busy connections by (address, security-mode) key; acquire fails with
PoolExhausted when the global ceiling or the per-destination ceiling is
already reached, and otherwise checks a connection out; release returns
one checked-out connection for its key. -/
structure PoolState where
  busy : List (String × Bool)
  deriving DecidableEq, Repr

/-- Number of busy connections held for a destination address. -/
def PoolState.busyAt (st : PoolState) (addr : String) : Nat :=
  (st.busy.filter (fun c => c.1 = addr)).length

/-- Modelled from the spec: ConnectionPool.acquire — fail with
PoolExhausted at a ceiling, otherwise mark one more connection busy. -/
def poolAcquire (max_total max_per_dest : Nat) (st : PoolState)
    (addr : String) (secure : Bool) : Except NetError PoolState :=
  if st.busy.length ≥ max_total ∨ st.busyAt addr ≥ max_per_dest then
    .error .poolExhausted
  else
    .ok { busy := (addr, secure) :: st.busy }

/-- Modelled from the spec: ConnectionPool.release — return one busy
connection with the given key to the idle set. -/
def poolRelease (st : PoolState) (addr : String) (secure : Bool) : PoolState :=
  { busy := st.busy.erase (addr, secure) }

/-- An acquire or release request issued to the pool. -/
inductive PoolOp where
  | acquireOp (addr : String) (secure : Bool)
  | releaseOp (addr : String) (secure : Bool)
  deriving DecidableEq, Repr

/-- One pool transition: a failed acquire (ceiling reached) leaves the
state unchanged; release always returns. -/
def poolStep (max_total max_per_dest : Nat) (st : PoolState) :
    PoolOp → PoolState
  | .acquireOp addr secure =>
    match poolAcquire max_total max_per_dest st addr secure with
    | .ok st2 => st2
    | .error _ => st
  | .releaseOp addr secure => poolRelease st addr secure

/-- Run a sequence of pool operations from the empty pool. -/
def runPool (max_total max_per_dest : Nat) (ops : List PoolOp) : PoolState :=
  ops.foldl (poolStep max_total max_per_dest) { busy := [] }

/-- Whether an event is a DNS resolution. -/
def NetEvent.isResolve : NetEvent → Bool
  | .resolve _ => true
  | _ => false

/-- Whether an event is a connection acquisition. -/
def NetEvent.isAcquire : NetEvent → Bool
  | .acquire _ _ => true
  | _ => false

/-- Whether an event is a request send. -/
def NetEvent.isSend : NetEvent → Bool
  | .send => true
  | _ => false

/-- Whether an event is a cache store. -/
def NetEvent.isCacheSet : NetEvent → Bool
  | .cacheSet _ => true
  | _ => false

/-- Whether an event is a connection release. -/
def NetEvent.isRelease : NetEvent → Bool
  | .release => true
  | _ => false

/-! Concrete fixtures used to instantiate theorems with hypotheses. -/

/-- A concrete configuration for instantiating theorems. -/
def testConfig : NetworkConfig :=
  { max_connections_per_host := 6
    max_total_connections := 100
    request_timeout := 10000
    dns_servers := ["8.8.8.8"]
    dns_cache_size := 100
    cache_max_size := 1048576
    cache_expiration_policy := 0
    ca_bundle_path := "certs"
    max_retries := 3
    network_monitor_interval := 60000 }

/-- A concrete cacheable response. -/
def testResponse : Response := { is_cacheable := true, body := "payload" }

/-- An environment whose cache holds testResponse for every url. -/
def envHit : Env :=
  { cacheGet := fun _ => .ok (some testResponse)
    resolve := fun h => .ok h
    acquire := fun _ _ => .ok { tag := "conn" }
    prepare := fun _ _ => .ok { tag := "req" }
    send := fun _ _ => .ok testResponse
    cacheSet := fun _ _ => .ok () }

/-- An environment whose cache is empty and whose network path succeeds,
returning testResponse. -/
def envMiss : Env :=
  { cacheGet := fun _ => .ok none
    resolve := fun h => .ok h
    acquire := fun _ _ => .ok { tag := "conn" }
    prepare := fun _ _ => .ok { tag := "req" }
    send := fun _ _ => .ok testResponse
    cacheSet := fun _ _ => .ok () }

/-! Theorems settling the claims. -/

/-- C5: with download_speed = 500000 (the low band, below 1 Mbps) the
adjusted configuration has max_connections_per_host = 2 and
request_timeout = 30000; in general the three download-speed bands
prescribe the pairs (2, 30000), (4, 15000) and (6, 10000). -/
theorem adjustSettings_bands (config : NetworkConfig) (s : SpeedTestResult) :
    (s.download_speed = 500000 →
      (adjustSettingsBasedOnNetworkConditions config s).max_connections_per_host
          = 2 ∧
      (adjustSettingsBasedOnNetworkConditions config s).request_timeout
          = 30000) ∧
    (s.download_speed < 1000000 →
      (adjustSettingsBasedOnNetworkConditions config s).max_connections_per_host
          = 2 ∧
      (adjustSettingsBasedOnNetworkConditions config s).request_timeout
          = 30000) ∧
    (1000000 ≤ s.download_speed → s.download_speed < 10000000 →
      (adjustSettingsBasedOnNetworkConditions config s).max_connections_per_host
          = 4 ∧
      (adjustSettingsBasedOnNetworkConditions config s).request_timeout
          = 15000) ∧
    (10000000 ≤ s.download_speed →
      (adjustSettingsBasedOnNetworkConditions config s).max_connections_per_host
          = 6 ∧
      (adjustSettingsBasedOnNetworkConditions config s).request_timeout
          = 10000) := by
  unfold adjustSettingsBasedOnNetworkConditions
  refine ⟨fun h => ?_, fun h => ?_, fun h1 h2 => ?_, fun h => ?_⟩
  · have hlt : s.download_speed < 1000000 := by omega
    simp [hlt]
  · simp [h]
  · have hge : ¬ s.download_speed < 1000000 := by omega
    simp [hge, h2]
  · have hge1 : ¬ s.download_speed < 1000000 := by omega
    have hge2 : ¬ s.download_speed < 10000000 := by omega
    simp [hge1, hge2]

/-- Witness for adjustSettings_bands at a concrete config and the
500 kbps measurement from the spec scenario. -/
theorem adjustSettings_bands_witness :
    (adjustSettingsBasedOnNetworkConditions testConfig
        { download_speed := 500000, upload_speed := 0, latency := 0
          : SpeedTestResult }).max_connections_per_host = 2 ∧
    (adjustSettingsBasedOnNetworkConditions testConfig
        { download_speed := 500000, upload_speed := 0, latency := 0
          : SpeedTestResult }).request_timeout = 30000 :=
  (adjustSettings_bands testConfig
    { download_speed := 500000, upload_speed := 0, latency := 0 }).1 rfl

/-- C10: adjustSettingsBasedOnNetworkConditions changes only
max_connections_per_host and request_timeout; every other field of the
pushed configuration keeps its previous value. -/
theorem adjustSettings_frame (config : NetworkConfig)
    (s : SpeedTestResult) :
    (adjustSettingsBasedOnNetworkConditions config s).max_total_connections
        = config.max_total_connections ∧
    (adjustSettingsBasedOnNetworkConditions config s).dns_servers
        = config.dns_servers ∧
    (adjustSettingsBasedOnNetworkConditions config s).dns_cache_size
        = config.dns_cache_size ∧
    (adjustSettingsBasedOnNetworkConditions config s).cache_max_size
        = config.cache_max_size ∧
    (adjustSettingsBasedOnNetworkConditions config s).cache_expiration_policy
        = config.cache_expiration_policy ∧
    (adjustSettingsBasedOnNetworkConditions config s).ca_bundle_path
        = config.ca_bundle_path ∧
    (adjustSettingsBasedOnNetworkConditions config s).max_retries
        = config.max_retries ∧
    (adjustSettingsBasedOnNetworkConditions config s).network_monitor_interval
        = config.network_monitor_interval := by
  unfold adjustSettingsBasedOnNetworkConditions
  split <;> [skip; split] <;> simp

/-- C1: with options.use_cache set, a fresh cached entry for the url is
returned immediately with an empty network trace (no resolve, acquire or
send); on a cache miss the successful network path performs exactly one
resolve, one acquire and one send and returns the network response. -/
theorem fetch_cache_hit_miss (env : Env) (url : String)
    (options : FetchOptions) (huse : options.use_cache = true) :
    (∀ r, env.cacheGet url = .ok (some r) →
      fetch env url options = (.ok r, [])) ∧
    (∀ ip conn req resp,
      env.cacheGet url = .ok none →
      env.resolve (extractHost url) = .ok ip →
      env.acquire ip options.use_ssl = .ok conn →
      env.prepare url options = .ok req →
      env.send conn req = .ok resp →
      env.cacheSet url resp = .ok () →
      (fetch env url options).1 = .ok resp ∧
      (fetch env url options).2.countP NetEvent.isResolve = 1 ∧
      (fetch env url options).2.countP NetEvent.isAcquire = 1 ∧
      (fetch env url options).2.countP NetEvent.isSend = 1) := by
  constructor
  · intro r hr
    simp only [fetch, huse, if_true, hr]
  · intro ip conn req resp h0 h1 h2 h3 h4 h5
    simp only [fetch, huse, if_true, h0, h1, h2, h3, h4]
    by_cases hc : (options.cache_response && resp.is_cacheable) = true
    · simp only [hc, if_true, h5]
      refine ⟨?_, ?_, ?_, ?_⟩ <;> trivial
    · simp only [Bool.not_eq_true] at hc
      simp only [hc, if_false]
      refine ⟨?_, ?_, ?_, ?_⟩ <;> trivial

/-- Witness for fetch_cache_hit_miss: a concrete hit env returns the
cached response with an empty trace; a concrete miss env performs the
three network operations once each. -/
theorem fetch_cache_hit_miss_witness :
    fetch envHit "u" {} = (.ok testResponse, []) ∧
    (fetch envMiss "u" {}).1 = .ok testResponse ∧
    (fetch envMiss "u" {}).2.countP NetEvent.isResolve = 1 ∧
    (fetch envMiss "u" {}).2.countP NetEvent.isAcquire = 1 ∧
    (fetch envMiss "u" {}).2.countP NetEvent.isSend = 1 :=
  ⟨(fetch_cache_hit_miss envHit "u" {} rfl).1 testResponse rfl,
   (fetch_cache_hit_miss envMiss "u" {} rfl).2 "u" { tag := "conn" }
     { tag := "req" } testResponse rfl rfl rfl rfl rfl rfl⟩

/-- C6: a fetch completing over the network stores the response in the
cache iff options.cache_response is set and the response's is_cacheable
flag is set; a non-cacheable response is never stored. -/
theorem fetch_caches_iff (env : Env) (url : String) (options : FetchOptions)
    (ip : String) (conn : Connection) (req : Request) (resp : Response)
    (h0 : (if options.use_cache then env.cacheGet url else .ok none)
            = .ok none)
    (h1 : env.resolve (extractHost url) = .ok ip)
    (h2 : env.acquire ip options.use_ssl = .ok conn)
    (h3 : env.prepare url options = .ok req)
    (h4 : env.send conn req = .ok resp)
    (h5 : env.cacheSet url resp = .ok ()) :
    (NetEvent.cacheSet url ∈ (fetch env url options).2 ↔
      (options.cache_response = true ∧ resp.is_cacheable = true)) := by
  simp only [fetch, h0, h1, h2, h3, h4]
  by_cases hc : (options.cache_response && resp.is_cacheable) = true
  · simp only [hc, if_true, h5]
    simp [Bool.and_eq_true] at hc
    simp [hc]
  · simp only [Bool.not_eq_true] at hc
    simp only [hc, if_false]
    simp only [Bool.and_eq_false_iff] at hc
    constructor
    · intro hmem
      simp [List.mem_cons] at hmem
    · rintro ⟨hcr, hic⟩
      rcases hc with hc | hc <;> simp_all

/-- Witness for fetch_caches_iff at the concrete miss environment. -/
theorem fetch_caches_iff_witness :
    (NetEvent.cacheSet "u" ∈ (fetch envMiss "u" {}).2 ↔
      (({} : FetchOptions).cache_response = true ∧
        testResponse.is_cacheable = true)) :=
  fetch_caches_iff envMiss "u" {} "u" { tag := "conn" } { tag := "req" }
    testResponse rfl rfl rfl rfl rfl rfl

/-- C7: on every exit path of fetch, each successful connection
acquisition is matched by a release: the trace always carries equally
many acquire and release events, for arbitrary outcomes of the cache
lookup, resolution, acquisition, request preparation, send and cache
store. -/
theorem fetch_release_balanced (env : Env) (url : String)
    (options : FetchOptions) :
    (fetch env url options).2.countP NetEvent.isAcquire =
      (fetch env url options).2.countP NetEvent.isRelease := by
  unfold fetch
  repeat' split
  all_goals rfl

/-- One pool step keeps the global busy count within the ceiling. -/
lemma poolStep_length_le (mt mpd : Nat) (st : PoolState) (op : PoolOp)
    (h : st.busy.length ≤ mt) :
    (poolStep mt mpd st op).busy.length ≤ mt := by
  cases op with
  | acquireOp addr secure =>
    by_cases hg : st.busy.length ≥ mt ∨ st.busyAt addr ≥ mpd
    · simpa [poolStep, poolAcquire, hg] using h
    · have hlt : st.busy.length < mt := by
        push_neg at hg
        exact hg.1
      simp only [poolStep, poolAcquire, if_neg hg]
      simp only [List.length_cons]
      omega
  | releaseOp addr secure =>
    simp only [poolStep, poolRelease]
    exact le_trans (List.erase_sublist _ _).length_le h

/-- One pool step keeps every per-destination busy count within the
ceiling. -/
lemma poolStep_busyAt_le (mt mpd : Nat) (st : PoolState) (op : PoolOp)
    (h : ∀ a, st.busyAt a ≤ mpd) :
    ∀ a, (poolStep mt mpd st op).busyAt a ≤ mpd := by
  intro a
  cases op with
  | acquireOp addr secure =>
    by_cases hg : st.busy.length ≥ mt ∨ st.busyAt addr ≥ mpd
    · simpa [poolStep, poolAcquire, hg] using h a
    · have hlt : st.busyAt addr < mpd := by
        push_neg at hg
        exact hg.2
      simp only [poolStep, poolAcquire, if_neg hg]
      by_cases haddr : addr = a
      · subst haddr
        simp only [PoolState.busyAt, List.filter_cons] at hlt ⊢
        simp at hlt ⊢
        omega
      · simp only [PoolState.busyAt, List.filter_cons]
        simp only [decide_eq_true_eq, if_neg haddr]
        exact h a
  | releaseOp addr secure =>
    refine le_trans ?_ (h a)
    simp only [poolStep, poolRelease, PoolState.busyAt]
    exact ((List.erase_sublist _ _).filter _).length_le

/-- C4: for every sequence of acquire and release operations from the
empty pool, the number of simultaneously busy connections never exceeds
the global ceiling nor the per-destination ceiling, and an acquire
issued at a ceiling fails with PoolExhausted instead of exceeding it. -/
theorem connectionPool_ceilings (mt mpd : Nat) (ops : List PoolOp) :
    (runPool mt mpd ops).busy.length ≤ mt ∧
    (∀ a, (runPool mt mpd ops).busyAt a ≤ mpd) ∧
    (∀ (st : PoolState) (addr : String) (secure : Bool),
      st.busy.length ≥ mt ∨ st.busyAt addr ≥ mpd →
      poolAcquire mt mpd st addr secure = .error .poolExhausted) := by
  have main : ∀ (l : List PoolOp) (st : PoolState),
      st.busy.length ≤ mt → (∀ a, st.busyAt a ≤ mpd) →
      (l.foldl (poolStep mt mpd) st).busy.length ≤ mt ∧
        ∀ a, (l.foldl (poolStep mt mpd) st).busyAt a ≤ mpd := by
    intro l
    induction l with
    | nil => intro st h1 h2; exact ⟨h1, h2⟩
    | cons op rest ih =>
      intro st h1 h2
      exact ih (poolStep mt mpd st op) (poolStep_length_le mt mpd st op h1)
        (poolStep_busyAt_le mt mpd st op h2)
  have base := main ops { busy := [] } (by simp)
    (by intro a; simp [PoolState.busyAt])
  refine ⟨base.1, base.2, ?_⟩
  intro st addr secure hguard
  simp only [poolAcquire]
  rw [if_pos]
  exact hguard

/-- Witness for connectionPool_ceilings: a concrete operation sequence
against ceilings 1/1, with the acquire-at-ceiling conjunct applied to
the full pool it produces. -/
theorem connectionPool_ceilings_witness :
    (runPool 1 1 [.acquireOp "h" true, .acquireOp "h2" false]).busy.length ≤ 1
      ∧
    poolAcquire 1 1 (runPool 1 1 [.acquireOp "h" true, .acquireOp "h2" false])
      "h3" true = .error .poolExhausted :=
  ⟨(connectionPool_ceilings 1 1 [.acquireOp "h" true, .acquireOp "h2" false]).1,
   (connectionPool_ceilings 1 1
      [.acquireOp "h" true, .acquireOp "h2" false]).2.2
     (runPool 1 1 [.acquireOp "h" true, .acquireOp "h2" false]) "h3" true
     (Or.inl (by decide))⟩

/-- A configuration identical to testConfig but with max_retries = 1,
used to exhibit the retry boundary. -/
def cfgRetryOne : NetworkConfig :=
  { testConfig with max_retries := 1 }

/-- Success side of the retry loop: starting at attempt a with
a ≤ n ≤ max_retries and enough fuel, execution reaches the succeeding
attempt n, having additionally waited base * 2 ^ i for each failed
attempt i in [a, n). -/
lemma executeRetryAux_succeeds (config : NetworkConfig) (n : Nat)
    (resp : Response) :
    ∀ fuel a w, a ≤ n → n ≤ config.max_retries → n + 1 ≤ a + fuel →
      executeRetryAux config (failsNTimes n resp) fuel a w =
        (.ok resp, w + ∑ i in Finset.Ico a n, nsPerMs * 2 ^ i) := by
  intro fuel
  induction fuel with
  | zero =>
    intro a w ha hn hfuel
    omega
  | succ fuel ih =>
    intro a w ha hn hfuel
    by_cases han : a = n
    · subst han
      simp [executeRetryAux, failsNTimes]
    · have halt : a < n := lt_of_le_of_ne ha han
      have hop : failsNTimes n resp a = .error .transientError := by
        simp [failsNTimes, halt]
      have hh : handleNetworkError config .transientError a
          = .ok (nsPerMs * 2 ^ a) := by
        have hna : ¬ a ≥ config.max_retries :=
          Nat.not_le.mpr (lt_of_lt_of_le halt hn)
        simp [handleNetworkError, hna]
      simp only [executeRetryAux, hop, hh]
      rw [ih (a + 1) (w + nsPerMs * 2 ^ a) halt hn (by omega)]
      rw [Finset.sum_eq_sum_Ico_succ_bot halt]
      simp [Nat.add_assoc]

/-- Failure side of the retry loop: when the operation keeps failing past
max_retries, the loop surfaces the last error as fatal. -/
lemma executeRetryAux_exhausts (config : NetworkConfig) (n : Nat)
    (resp : Response) (hn : config.max_retries < n) :
    ∀ fuel a w, a ≤ config.max_retries →
      config.max_retries + 1 ≤ a + fuel →
      (executeRetryAux config (failsNTimes n resp) fuel a w).1 =
        .error .transientError := by
  intro fuel
  induction fuel with
  | zero =>
    intro a w ha hf
    omega
  | succ fuel ih =>
    intro a w ha hf
    have hop : failsNTimes n resp a = .error .transientError := by
      simp [failsNTimes, lt_of_le_of_lt ha hn]
    by_cases hmax : a ≥ config.max_retries
    · simp [executeRetryAux, hop, handleNetworkError, hmax]
    · have hh : handleNetworkError config .transientError a
          = .ok (nsPerMs * 2 ^ a) := by
        simp [handleNetworkError, hmax]
      simp only [executeRetryAux, hop, hh]
      exact ih (a + 1) (w + nsPerMs * 2 ^ a) (by omega) (by omega)

/-- C2 (amended): for an operation failing transiently n times then
succeeding, the retry controller succeeds iff n ≤ max_retries (one
initial attempt plus up to max_retries retries); on success the total
wait is the sum of base * 2 ^ i for i in [0, n) with base one
millisecond; past max_retries the last error surfaces as fatal; and the
wait the handler schedules before 0-based retry i is base * 2 ^ i. -/
theorem executeRetry_failsNTimes (config : NetworkConfig) (n : Nat)
    (resp : Response) :
    ((executeRetry config (failsNTimes n resp)).1 = .ok resp ↔
      n ≤ config.max_retries) ∧
    (n ≤ config.max_retries →
      (executeRetry config (failsNTimes n resp)).2 =
        ∑ i in Finset.range n, nsPerMs * 2 ^ i) ∧
    (config.max_retries < n →
      (executeRetry config (failsNTimes n resp)).1 =
        .error .transientError) ∧
    (∀ (e : NetError) (i : Nat), i < config.max_retries →
      handleNetworkError config e i = .ok (nsPerMs * 2 ^ i)) := by
  have hhandler : ∀ (e : NetError) (i : Nat), i < config.max_retries →
      handleNetworkError config e i = .ok (nsPerMs * 2 ^ i) := by
    intro e i hi
    have hni : ¬ i ≥ config.max_retries := Nat.not_le.mpr hi
    simp [handleNetworkError, hni]
  by_cases hn : n ≤ config.max_retries
  · have hmain := executeRetryAux_succeeds config n resp
      (config.max_retries + 1) 0 0 (Nat.zero_le n) hn (by omega)
    refine ⟨?_, fun _ => ?_, fun h => absurd hn (Nat.not_le.mpr h),
      hhandler⟩
    · unfold executeRetry
      rw [hmain]
      simp [hn]
    · unfold executeRetry
      rw [hmain, Finset.range_eq_Ico]
      exact Nat.zero_add _
  · have hlt : config.max_retries < n := Nat.not_le.mp hn
    have hmain := executeRetryAux_exhausts config n resp hlt
      (config.max_retries + 1) 0 0 (Nat.zero_le _) (by omega)
    refine ⟨?_, fun h => absurd h hn, fun _ => ?_, hhandler⟩
    · unfold executeRetry
      rw [hmain]
      simp [hn]
    · unfold executeRetry
      exact hmain

/-- Witness for executeRetry_failsNTimes: two transient failures against
max_retries = 3 succeed with total wait base * (2 ^ 0 + 2 ^ 1). -/
theorem executeRetry_failsNTimes_witness :
    (executeRetry testConfig (failsNTimes 2 testResponse)).1
        = .ok testResponse ∧
    (executeRetry testConfig (failsNTimes 2 testResponse)).2 =
      ∑ i in Finset.range 2, nsPerMs * 2 ^ i :=
  ⟨(executeRetry_failsNTimes testConfig 2 testResponse).1.mpr (by decide),
   (executeRetry_failsNTimes testConfig 2 testResponse).2.1 (by decide)⟩

/-- C2 counterexample: with max_retries = 1 an operation that fails
transiently once then succeeds (N = 1) is retried successfully, yet
N < max_retries fails — success is not equivalent to N < max_retries as
the claim states; the correct bound is N ≤ max_retries. -/
theorem executeRetry_strict_bound_false :
    ¬ (((executeRetry cfgRetryOne (failsNTimes 1 testResponse)).1
          = .ok testResponse) ↔ 1 < cfgRetryOne.max_retries) := by
  decide

/-- A fetch oracle that always succeeds, for queue scenarios. -/
def fetchAlwaysOk : String → FetchOptions → Except NetError Response :=
  fun _ _ => .ok testResponse

/-- C3 counterexample: enqueueing "a" then "b" and draining calls fetch
on "b" first — popOrNull removes the most recently queued entry, so the
drain order is LIFO, not the claimed FIFO enqueue order. -/
theorem processQueue_fifo_false :
    (processQueue fetchAlwaysOk
        (queueRequest (queueRequest [] "a" {}) "b" {})).2.2 ≠
      [("a", ({} : FetchOptions)), ("b", ({} : FetchOptions))] := by
  decide

/-- When every entry's fetch succeeds, a drain pass calls fetch once per
entry in traversal order and empties the queue. -/
lemma drainRev_all_ok
    (rf : String → FetchOptions → Except NetError Response)
    (l : List PendingRequest)
    (h : ∀ p ∈ l, ∃ r, rf p.url p.options = .ok r) :
    drainRev rf l = (.ok (), [], l.map fun p => (p.url, p.options)) := by
  induction l with
  | nil => rfl
  | cons p rest ih =>
    obtain ⟨r, hr⟩ := h p (List.mem_cons_self p rest)
    simp only [drainRev, hr]
    rw [ih (fun q hq => h q (List.mem_cons_of_mem p hq))]
    rfl

/-- C3 (amended): when every queued entry's fetch succeeds, processQueue
calls fetch exactly once per queued entry, but in LIFO order — the
reverse of the order in which queueRequest enqueued them — and leaves
the queue empty. -/
theorem processQueue_drains_lifo
    (rf : String → FetchOptions → Except NetError Response)
    (q : List PendingRequest)
    (h : ∀ p ∈ q, ∃ r, rf p.url p.options = .ok r) :
    processQueue rf q =
      (.ok (), [], (q.map fun p => (p.url, p.options)).reverse) := by
  have hrev : ∀ p ∈ q.reverse, ∃ r, rf p.url p.options = .ok r :=
    fun p hp => h p (List.mem_reverse.mp hp)
  unfold processQueue
  rw [drainRev_all_ok rf q.reverse hrev]
  simp [List.map_reverse]

/-- Witness for processQueue_drains_lifo at the two-entry queue. -/
theorem processQueue_drains_lifo_witness :
    processQueue fetchAlwaysOk
        (queueRequest (queueRequest [] "a" {}) "b" {}) =
      (.ok (), [],
        ((queueRequest (queueRequest [] "a" {}) "b" {}).map
          fun p => (p.url, p.options)).reverse) :=
  processQueue_drains_lifo fetchAlwaysOk
    (queueRequest (queueRequest [] "a" {}) "b" {})
    (fun _ _ => ⟨testResponse, rfl⟩)

/-- A fetch oracle failing exactly on url "b". -/
def fetchFailsOnB : String → FetchOptions → Except NetError Response :=
  fun url _ =>
    if url = "b" then .error .transientError else .ok testResponse

/-- C8 counterexample: with "a" queued before "b" and fetch failing on
"b", the pass pops "b" first, fails, and aborts: entry "a" stays in the
queue and fetch is never called on it, so the remaining queued entries
are not drained in that same pass. -/
theorem processQueue_drains_rest_false :
    (processQueue fetchFailsOnB
        (queueRequest (queueRequest [] "a" {}) "b" {})).2.1 =
      [{ url := "a", options := {} }] ∧
    ("a", ({} : FetchOptions)) ∉
      (processQueue fetchFailsOnB
        (queueRequest (queueRequest [] "a" {}) "b" {})).2.2 := by
  decide

/-- Characterizes one drain pass over the reversed queue: a prefix of
the traversal is called; either the whole list is consumed with every
call succeeding, or a failing call ends the pass, all calls before it
having succeeded, with the untraversed elements left over. -/
lemma drainRev_char
    (rf : String → FetchOptions → Except NetError Response)
    (l : List PendingRequest) :
    ∃ called rest, l = called ++ rest ∧
      (drainRev rf l).2.2 = called.map (fun p => (p.url, p.options)) ∧
      (drainRev rf l).2.1 = rest ∧
      (((drainRev rf l).1 = .ok () ∧ rest = [] ∧
          ∀ p ∈ called, ∃ r, rf p.url p.options = .ok r) ∨
        (∃ e p pre, called = pre ++ [p] ∧
          rf p.url p.options = .error e ∧
          (drainRev rf l).1 = .error e ∧
          ∀ q ∈ pre, ∃ r, rf q.url q.options = .ok r)) := by
  induction l with
  | nil =>
    exact ⟨[], [], rfl, rfl, rfl, Or.inl ⟨rfl, rfl, by simp⟩⟩
  | cons p rest0 ih =>
    cases hp : rf p.url p.options with
    | error e =>
      refine ⟨[p], rest0, rfl, ?_, ?_,
        Or.inr ⟨e, p, [], rfl, hp, ?_, by simp⟩⟩
      all_goals simp [drainRev, hp]
    | ok r =>
      obtain ⟨called, rest, hsplit, hcalls, hrem, hres⟩ := ih
      refine ⟨p :: called, rest, by simp [hsplit], ?_, ?_, ?_⟩
      · simp [drainRev, hp, hcalls]
      · simp [drainRev, hp, hrem]
      · rcases hres with ⟨hok, hrest, hall⟩ | ⟨e, pf, pre, hc, hf, herr, hpre⟩
        · refine Or.inl ⟨by simp [drainRev, hp, hok], hrest, ?_⟩
          intro q hq
          rcases List.mem_cons.mp hq with hq | hq
          · exact hq ▸ ⟨r, hp⟩
          · exact hall q hq
        · refine Or.inr ⟨e, pf, p :: pre, by rw [hc]; rfl, hf,
            by simp [drainRev, hp, herr], ?_⟩
          intro q hq
          rcases List.mem_cons.mp hq with hq | hq
          · exact hq ▸ ⟨r, hp⟩
          · exact hpre q hq

/-- C8 (amended): in a drain pass each queued entry is attempted at most
once and a failing entry is discarded, but the pass aborts at the first
failure instead of draining the rest: the queue splits into a
not-yet-popped prefix q1 (left queued, never fetched this pass) and a
popped suffix q2 whose entries each receive exactly one fetch call, in
LIFO order; on success q1 is empty, and on failure the failing entry is
the earliest-queued popped one, every entry popped before it having
succeeded. -/
theorem processQueue_at_most_once
    (rf : String → FetchOptions → Except NetError Response)
    (q : List PendingRequest) :
    ∃ q1 q2, q = q1 ++ q2 ∧
      (processQueue rf q).2.1 = q1 ∧
      (processQueue rf q).2.2 =
        (q2.map fun p => (p.url, p.options)).reverse ∧
      (((processQueue rf q).1 = .ok () ∧ q1 = [] ∧
          ∀ p ∈ q2, ∃ r, rf p.url p.options = .ok r) ∨
        (∃ e p q3, q2 = p :: q3 ∧ rf p.url p.options = .error e ∧
          (processQueue rf q).1 = .error e ∧
          ∀ p2 ∈ q3, ∃ r, rf p2.url p2.options = .ok r)) := by
  obtain ⟨called, rest, hsplit, hcalls, hrem, hres⟩ := drainRev_char rf q.reverse
  refine ⟨rest.reverse, called.reverse, ?_, ?_, ?_, ?_⟩
  · calc q = q.reverse.reverse := (List.reverse_reverse q).symm
    _ = (called ++ rest).reverse := by rw [← hsplit]
    _ = rest.reverse ++ called.reverse := List.reverse_append _ _
  · simp [processQueue, hrem]
  · simp [processQueue, hcalls, List.map_reverse]
  · rcases hres with ⟨hok, hrest, hall⟩ | ⟨e, pf, pre, hc, hf, herr, hpre⟩
    · refine Or.inl ⟨by simpa [processQueue] using hok, by simp [hrest], ?_⟩
      intro p hp
      exact hall p (List.mem_reverse.mp hp)
    · refine Or.inr ⟨e, pf, pre.reverse, ?_, hf,
        by simpa [processQueue] using herr, ?_⟩
      · rw [hc]
        simp
      · intro p2 hp2
        exact hpre p2 (List.mem_reverse.mp hp2)

/-- An update outcome where the http push succeeds and the dns push
fails. -/
def ocDnsFails : UpdateOutcome :=
  { http_ok := true, dns_ok := false, cache_ok := true, pool_ok := true }

/-- A manager state whose components all hold testConfig. -/
def stOld : ManagerState :=
  { config := testConfig
    http_config := httpConfigOf testConfig
    dns_config := dnsConfigOf testConfig
    cache_config := cacheConfigOf testConfig
    pool_max_connections := testConfig.max_total_connections }

/-- A new configuration differing from testConfig in every pushed
field. -/
def cfgNew : NetworkConfig :=
  { max_connections_per_host := 2
    max_total_connections := 50
    request_timeout := 30000
    dns_servers := ["1.1.1.1"]
    dns_cache_size := 10
    cache_max_size := 1024
    cache_expiration_policy := 1
    ca_bundle_path := "certs2"
    max_retries := 5
    network_monitor_interval := 1000 }

/-- C9 counterexample: when the dns push inside updateConfig fails, the
update returns an error yet leaves the http client holding the new
configuration while the dns resolver and cache manager still hold the
old one — observers see a half-applied mixture, so the update is not
atomic. -/
theorem updateConfig_not_atomic :
    (updateConfig ocDnsFails stOld cfgNew).1 = .error .otherError ∧
    (updateConfig ocDnsFails stOld cfgNew).2.http_config
        = httpConfigOf cfgNew ∧
    (updateConfig ocDnsFails stOld cfgNew).2.dns_config
        = dnsConfigOf testConfig ∧
    (updateConfig ocDnsFails stOld cfgNew).2.dns_config
        ≠ dnsConfigOf cfgNew ∧
    (updateConfig ocDnsFails stOld cfgNew).2.cache_config
        ≠ cacheConfigOf cfgNew := by
  decide

/-- C9 (amended): updateConfig applies the new configuration in a fixed
order — the manager's own config field first, then the http client, dns
resolver, cache manager and connection pool — and stops at the first
failing push: components updated before the failure hold the new
configuration, those after it keep the old one, and the update as a
whole succeeds exactly when all four pushes succeed, so a partial
failure leaves an observable old/new mixture rather than an atomic
all-or-nothing switch. -/
theorem updateConfig_prefix (oc : UpdateOutcome) (st : ManagerState)
    (nc : NetworkConfig) :
    (updateConfig oc st nc).2.config = nc ∧
    (updateConfig oc st nc).2.http_config =
      (if oc.http_ok then httpConfigOf nc else st.http_config) ∧
    (updateConfig oc st nc).2.dns_config =
      (if oc.http_ok ∧ oc.dns_ok then dnsConfigOf nc
        else st.dns_config) ∧
    (updateConfig oc st nc).2.cache_config =
      (if oc.http_ok ∧ oc.dns_ok ∧ oc.cache_ok then cacheConfigOf nc
        else st.cache_config) ∧
    (updateConfig oc st nc).2.pool_max_connections =
      (if oc.http_ok ∧ oc.dns_ok ∧ oc.cache_ok ∧ oc.pool_ok then
        nc.max_total_connections else st.pool_max_connections) ∧
    ((updateConfig oc st nc).1 = .ok () ↔
      (oc.http_ok ∧ oc.dns_ok ∧ oc.cache_ok ∧ oc.pool_ok)) := by
  obtain ⟨h1, h2, h3, h4⟩ := oc
  cases h1 <;> cases h2 <;> cases h3 <;> cases h4 <;>
    simp [updateConfig]

end Aluminum
